import Mathlib

/-!
# TaskFlow: shallow embedding of the task store and its endpoint handlers

This development embeds the data model of `src/database.py` and the request
handlers of `src/app.py` of the TaskFlow repository, and proves the spec's
claims about them.

Modelling conventions:
- Naive datetimes are whole seconds on a linear clock (`DateTime := Nat`),
  86400 seconds per day; `datetime.now()` becomes an explicit `now` argument
  to the handlers that read the clock.
- The SQLite `tasks` table is a `List Task` in row order.  The `id` column
  is an `INTEGER PRIMARY KEY`, so well-formed stores have pairwise distinct
  ids; theorems that need this carry it as a hypothesis.
- `db.query(Task).filter(Task.id == task_id).first()` is `List.find?`;
  mutating the ORM object found and committing replaces the first row with
  that id; `db.delete(task)` erases that row.
- Handlers that raise `HTTPException` are embedded with `Option`/`Except`
  results; a handler that raises before mutating returns the store unchanged.
-/

namespace TaskFlow

/-- Timestamps: seconds on a linear clock (second granularity, as in the
spec's `[00:00:00, 23:59:59]` day bounds). -/
abbrev DateTime := Nat

/-- Seconds per day, for deriving start-of-day from a timestamp. -/
def secondsPerDay : Nat := 86400

/-- Row of the `tasks` table (`src/database.py`, class `Task`).
`title` is `String(200) NOT NULL`; `description`, `updated_at`, `due_date`
are nullable; `status` is a plain `String(20)` column with default
`"todo"` (the `TaskStatus` enum is not wired to the column). -/
structure Task where
  id : Nat
  title : String
  description : Option String
  status : String
  priority : Int
  created_at : DateTime
  updated_at : Option DateTime
  due_date : Option DateTime
deriving Repr, DecidableEq

/-- The four values of the `TaskStatus` enum in `src/database.py`. -/
def validStatus (s : String) : Prop :=
  s = "todo" ∨ s = "in_progress" ∨ s = "done" ∨ s = "blocked"

instance (s : String) : Decidable (validStatus s) := by
  unfold validStatus; infer_instance

/-- The state invariant claimed by the spec for every persisted task:
status among the enumerated values and a non-empty title. -/
def StoreInvariant (db : List Task) : Prop :=
  ∀ t ∈ db, validStatus t.status ∧ t.title ≠ ""

instance (db : List Task) : Decidable (StoreInvariant db) := by
  unfold StoreInvariant; infer_instance

/-- Pydantic input model `TaskCreate` (= `TaskBase`) from `src/app.py`:
`title` required, `description`/`due_date` optional, `priority` defaults
to 3.  There is no `status` field; a `status` key in the request body is
ignored by deserialization. -/
structure TaskCreate where
  title : String
  description : Option String := none
  priority : Int := 3
  due_date : Option DateTime := none
deriving Repr, DecidableEq

/-- Pydantic input model `TaskUpdate` from `src/app.py`.  The outer
`Option` is pydantic's "field not set" (excluded by
`model_dump(exclude_unset := ...)`); for the nullable columns the inner
`Option` is an explicitly supplied null.  (Explicitly supplying `title:
null` would violate the NOT NULL column at commit time — a store-level
failure outside these claims — so `title` set-to-null is not modelled.) -/
structure TaskUpdate where
  title : Option String := none
  description : Option (Option String) := none
  priority : Option Int := none
  status : Option String := none
  due_date : Option (Option DateTime) := none
deriving Repr, DecidableEq

/-- SQLite assigns a fresh `INTEGER PRIMARY KEY`: one more than the
largest id in the table (1 on an empty table). -/
def nextId (db : List Task) : Nat :=
  (db.map Task.id).foldr max 0 + 1

/-- `POST /tasks/` (`create_task` in `src/app.py`): builds a row from the
input, leaving `status` and `created_at` to their column defaults
(`"todo"`, `datetime.utcnow`) and `updated_at` null; inserts and returns
the row. -/
def create_task (task : TaskCreate) (now : DateTime) (db : List Task) :
    Task × List Task :=
  let db_task : Task :=
    { id := nextId db
      title := task.title
      description := task.description
      status := "todo"
      priority := task.priority
      created_at := now
      updated_at := none
      due_date := task.due_date }
  (db_task, db ++ [db_task])

/-- Python truthiness of the `status: Optional[str] = None` query
parameter in `get_tasks`: `None` and the empty string are falsy. -/
def statusTruthy : Option String → Bool
  | none => false
  | some s => s ≠ ""

/-- `GET /tasks/` (`get_tasks` in `src/app.py`): `if status:` adds an
exact-match filter, then `query.limit(limit)` caps the result in both
branches. -/
def get_tasks (status : Option String) (limit : Nat) (db : List Task) :
    List Task :=
  let query := db
  let query :=
    if statusTruthy status then
      query.filter (fun t => t.status == status.getD "")
    else query
  query.take limit

/-- `GET /tasks/{task_id}` (`get_task` in `src/app.py`): first row with
this id, `none` = HTTP 404. -/
def get_task (task_id : Nat) (db : List Task) : Option Task :=
  db.find? (fun t => t.id == task_id)

/-- `setattr` loop of `update_task`: overwrite exactly the fields present
in `model_dump(exclude_unset := ...)`.  `id`, `created_at` and
`updated_at` are not fields of `TaskUpdate`, so they are never touched. -/
def applyUpdate (u : TaskUpdate) (t : Task) : Task :=
  { t with
    title := u.title.getD t.title
    description := u.description.getD t.description
    priority := u.priority.getD t.priority
    status := u.status.getD t.status
    due_date := u.due_date.getD t.due_date }

/-- Replace the first row with the given id (the ORM mutation of the row
returned by `.first()`, made visible by `commit`). -/
def replaceTask (task_id : Nat) (t' : Task) : List Task → List Task
  | [] => []
  | t :: rest =>
      if t.id == task_id then t' :: rest
      else t :: replaceTask task_id t' rest

/-- `PUT /tasks/{task_id}` (`update_task` in `src/app.py`): 404 when the
id is absent; otherwise apply the set fields and commit.  Returns the
updated task and the new store. -/
def update_task (task_id : Nat) (u : TaskUpdate) (db : List Task) :
    Option (Task × List Task) :=
  match db.find? (fun t => t.id == task_id) with
  | none => none
  | some t =>
      let t' := applyUpdate u t
      some (t', replaceTask task_id t' db)

/-- `DELETE /tasks/{task_id}` (`delete_task` in `src/app.py`): 404 when
absent; otherwise remove the row and return its title. -/
def delete_task (task_id : Nat) (db : List Task) :
    Option (String × List Task) :=
  match db.find? (fun t => t.id == task_id) with
  | none => none
  | some t => some (t.title, db.eraseP (fun s => s.id == task_id))

/-- `datetime.now().replace(hour := 0, minute := 0, second := 0,
microsecond := 0)`: start of the current day. -/
def today_start (now : DateTime) : DateTime :=
  (now / secondsPerDay) * secondsPerDay

/-- `datetime.now().replace(hour := 23, minute := 59, second := 59)`:
last second of the current day. -/
def today_end (now : DateTime) : DateTime :=
  today_start now + (secondsPerDay - 1)

/-- `GET /tasks/today/` (`get_todays_tasks` in `src/app.py`): SQL
`due_date BETWEEN today_start AND today_end OR status = 'in_progress'`;
`BETWEEN` is inclusive and is NULL (falsy) on a NULL `due_date`. -/
def get_todays_tasks (now : DateTime) (db : List Task) : List Task :=
  db.filter (fun t =>
    (match t.due_date with
     | some d => decide (today_start now ≤ d) && decide (d ≤ today_end now)
     | none => false)
    || t.status == "in_progress")

/-- Failures of `POST /tasks/{task_id}/done`: HTTP 404 / HTTP 400. -/
inductive MarkDoneError where
  | NotFound
  | AlreadyDone
deriving Repr, DecidableEq

/-- `POST /tasks/{task_id}/done` (`mark_task_done` in `src/app.py`): 404
when absent, 400 when the row's status is already `"done"`; both raised
before any mutation, so the store is returned unchanged; otherwise set
`status := "done"` and commit.  No other field is written. -/
def mark_task_done (task_id : Nat) (db : List Task) :
    Except MarkDoneError Task × List Task :=
  match db.find? (fun t => t.id == task_id) with
  | none => (.error .NotFound, db)
  | some t =>
      if t.status == "done" then (.error .AlreadyDone, db)
      else
        let t' := { t with status := "done" }
        (.ok t', replaceTask task_id t' db)

/-- Nearest integer to `num / den`, ties to even: the rounding of IEEE
round-to-nearest and of Python's fixed-decimal float formatting. -/
def roundHalfEven (num den : Nat) : Nat :=
  let q := num / den
  let r := num % den
  if 2 * r < den then q
  else if 2 * r > den then q + 1
  else if q % 2 = 0 then q else q + 1

/-- `⌊log₂ n⌋` by structural recursion on a fuel bound (`n` itself), so
the kernel can evaluate it. -/
def log2fuel : Nat → Nat → Nat
  | 0, _ => 0
  | fuel + 1, n => if n ≥ 2 then log2fuel fuel (n / 2) + 1 else 0

/-- `⌊log₂ n⌋` (0 at 0). -/
def natLog2 (n : Nat) : Nat := log2fuel n n

/-- Is `num / den ≥ 2 ^ e` (signed exponent)? -/
def gePow2 (num den : Nat) (e : Int) : Bool :=
  if 0 ≤ e then den * 2 ^ e.toNat ≤ num else den ≤ num * 2 ^ (-e).toNat

/-- The IEEE binary64 value nearest to `num / den` (`num ≠ 0`), as a pair
`(m, e)` with value `m * 2 ^ e`: round to 53 significant bits, ties to
even.  The exponent is unbounded (normal range only): faithful for every
ratio a task store's counts can produce, which never reaches the
subnormal or overflow range since `0 < done ≤ total`. -/
def roundDoubleQ (num den : Nat) : Nat × Int :=
  if num = 0 then (0, 0)
  else
    let e0 : Int := (natLog2 num : Int) - natLog2 den
    let e : Int := if gePow2 num den e0 then e0 else e0 - 1
    let sh : Int := 52 - e
    let m : Nat :=
      if 0 ≤ sh then roundHalfEven (num * 2 ^ sh.toNat) den
      else roundHalfEven num (den * 2 ^ (-sh).toNat)
    (m, e - 52)

/-- The binary64 value Python computes for `done_tasks/total_tasks*100`:
integer true division is correctly rounded to a double, then the
multiplication by the exactly representable constant 100 is correctly
rounded again. -/
def pyPercentValue (done_tasks total_tasks : Nat) : Nat × Int :=
  let q1 := roundDoubleQ done_tasks total_tasks
  if 0 ≤ q1.2 then roundDoubleQ (q1.1 * 100 * 2 ^ q1.2.toNat) 1
  else roundDoubleQ (q1.1 * 100) (2 ^ (-q1.2).toNat)

/-- Python `f"{(done_tasks/total_tasks*100):.1f}%"`: format the binary64
value of `done_tasks/total_tasks*100` with one decimal place, rounding
its exact (dyadic) value to tenths with ties to even, as CPython's
float-to-string conversion does. -/
def formatPercent1 (done_tasks total_tasks : Nat) : String :=
  let q2 := pyPercentValue done_tasks total_tasks
  let tenths : Nat :=
    if 0 ≤ q2.2 then q2.1 * 10 * 2 ^ q2.2.toNat
    else roundHalfEven (q2.1 * 10) (2 ^ (-q2.2).toNat)
  toString (tenths / 10) ++ "." ++ toString (tenths % 10) ++ "%"

/-- Response shape of `GET /stats/`. -/
structure Stats where
  total_tasks : Nat
  todo : Nat
  in_progress : Nat
  done : Nat
  overdue_tasks : Nat
  completion_rate : String
deriving Repr, DecidableEq

/-- `GET /stats/` (`get_stats` in `src/app.py`): counts by exact status
string (`by_status` has keys `todo`, `in_progress`, `done` only), overdue
= `due_date < now AND status != 'done'` (NULL `due_date` never compares
true), completion rate formatted with one decimal, or the literal `"0%"`
when the store is empty. -/
def get_stats (now : DateTime) (db : List Task) : Stats :=
  let total_tasks := db.length
  let todo_tasks := (db.filter (fun t => t.status == "todo")).length
  let in_progress := (db.filter (fun t => t.status == "in_progress")).length
  let done_tasks := (db.filter (fun t => t.status == "done")).length
  let overdue := (db.filter (fun t =>
    (match t.due_date with
     | some d => decide (d < now)
     | none => false)
    && t.status != "done")).length
  { total_tasks := total_tasks
    todo := todo_tasks
    in_progress := in_progress
    done := done_tasks
    overdue_tasks := overdue
    completion_rate :=
      if total_tasks > 0 then formatPercent1 done_tasks total_tasks
      else "0%" }

/-- A store of 101 rows, all with status `"done"` and distinct ids: a
population exceeding the default `limit = 100` of `get_tasks`. -/
def manyDone : List Task :=
  (List.range 101).map (fun i =>
    { id := i + 1
      title := "T"
      description := none
      status := "done"
      priority := 3
      created_at := 0
      updated_at := none
      due_date := none })

/-! ## Helper lemmas -/

/-- A successful `find?` by id returns a member of the store bearing that
id. -/
theorem find_task_mem {task_id : Nat} {db : List Task} {t : Task}
    (h : db.find? (fun s => s.id == task_id) = some t) :
    t ∈ db ∧ t.id = task_id := by
  refine ⟨List.mem_of_find?_eq_some h, ?_⟩
  simpa using List.find?_some h

/-- With pairwise-distinct ids, `find?` by id finds any given member
bearing that id. -/
theorem find_task_of_mem {task_id : Nat} {db : List Task} {t : Task}
    (hnd : (db.map Task.id).Nodup) (ht : t ∈ db) (hid : t.id = task_id) :
    db.find? (fun s => s.id == task_id) = some t := by
  induction db with
  | nil => cases ht
  | cons a rest ih =>
      rw [List.map_cons, List.nodup_cons] at hnd
      rcases List.mem_cons.mp ht with h | h
      · subst h
        exact List.find?_cons_of_pos rest (by simpa using hid)
      · have hne : ¬ ((a.id == task_id) = true) := by
          simp only [beq_iff_eq]
          intro hc
          exact hnd.1 (by rw [hc, ← hid]; exact List.mem_map_of_mem Task.id h)
        rw [List.find?_cons_of_neg rest hne]
        exact ih hnd.2 h

/-- With pairwise-distinct ids, erasing by id removes exactly the rows
bearing that id. -/
theorem mem_eraseP_id {task_id : Nat} {db : List Task}
    (hnd : (db.map Task.id).Nodup) (s : Task) :
    s ∈ db.eraseP (fun t => t.id == task_id) ↔ s ∈ db ∧ s.id ≠ task_id := by
  induction db with
  | nil => simp
  | cons a rest ih =>
      rw [List.map_cons, List.nodup_cons] at hnd
      by_cases ha : a.id = task_id
      · rw [List.eraseP_cons]
        simp only [ha, beq_self_eq_true, cond_true]
        constructor
        · intro hs
          refine ⟨List.mem_cons_of_mem a hs, ?_⟩
          intro hc
          exact hnd.1 (by rw [ha, ← hc]; exact List.mem_map_of_mem Task.id hs)
        · rintro ⟨hs, hne⟩
          rcases List.mem_cons.mp hs with h | h
          · exact absurd (h ▸ ha) hne
          · exact h
      · rw [List.eraseP_cons]
        have : (a.id == task_id) = false := by simpa using ha
        simp only [this, cond_false, List.mem_cons, ih hnd.2]
        constructor
        · rintro (h | ⟨hs, hne⟩)
          · exact ⟨Or.inl h, h ▸ ha⟩
          · exact ⟨Or.inr hs, hne⟩
        · rintro ⟨h | h, hne⟩
          · exact Or.inl h
          · exact Or.inr ⟨h, hne⟩

/-- When some row bears the id, the replacement row is in the updated
store. -/
theorem mem_replaceTask_of_find {task_id : Nat} {t t' : Task}
    {db : List Task}
    (h : db.find? (fun s => s.id == task_id) = some t) :
    t' ∈ replaceTask task_id t' db := by
  induction db with
  | nil => simp [List.find?] at h
  | cons a rest ih =>
      by_cases ha : (a.id == task_id) = true
      · simp [replaceTask, ha]
      · rw [List.find?_cons_of_neg rest ha] at h
        rw [replaceTask]
        simp only [ha, if_false]
        exact List.mem_cons_of_mem a (ih h)

/-- Every row of the updated store is the replacement row or a row of the
old store. -/
theorem mem_replaceTask {task_id : Nat} {t' s : Task} {db : List Task}
    (h : s ∈ replaceTask task_id t' db) : s = t' ∨ s ∈ db := by
  induction db with
  | nil => simp [replaceTask] at h
  | cons a rest ih =>
      rw [replaceTask] at h
      by_cases ha : (a.id == task_id) = true
      · simp only [ha, if_true] at h
        rcases List.mem_cons.mp h with h | h
        · exact Or.inl h
        · exact Or.inr (List.mem_cons_of_mem a h)
      · simp only [ha, if_false] at h
        rcases List.mem_cons.mp h with h | h
        · exact Or.inr (h ▸ List.mem_cons_self a rest)
        · rcases ih h with h | h
          · exact Or.inl h
          · exact Or.inr (List.mem_cons_of_mem a h)

/-! ## Theorems for the claims -/

/-- C1: `today()` returns a task `t` of the store iff `t.due_date` is set
and lies in the inclusive range from start-of-current-day 00:00:00 to
current-day 23:59:59, OR `t.status = "in_progress"`; the predicates are
combined by logical OR, so an in-progress task qualifies regardless of
its due date, and a task due tomorrow with status `todo` does not. -/
theorem today_membership (now : DateTime) (db : List Task) (t : Task) :
    t ∈ get_todays_tasks now db ↔
      t ∈ db ∧
        ((∃ d, t.due_date = some d ∧
            today_start now ≤ d ∧ d ≤ today_start now + (secondsPerDay - 1)) ∨
          t.status = "in_progress") := by
  simp only [get_todays_tasks, List.mem_filter, today_end]
  cases h : t.due_date with
  | none => simp [h]
  | some d => simp [h]

/-- C10: the task returned by `create` has status `"todo"` (the input
model carries no status field, so no request can create a task in any
other status), and the new store is the old one with exactly that row
appended. -/
theorem create_status_todo (input : TaskCreate) (now : DateTime)
    (db : List Task) :
    (create_task input now db).1.status = "todo" ∧
    (create_task input now db).2 = db ++ [(create_task input now db).1] :=
  ⟨rfl, rfl⟩

/-- C5: on a store with distinct ids, `markDone(id)` fails with NotFound
iff no task with that id exists; fails with AlreadyDone iff the task
exists with status already `"done"`; on either failure the store is
unchanged; on success the task's status becomes `"done"` and the updated
row is in the store. -/
theorem markDone_spec (task_id : Nat) (db : List Task)
    (hnd : (db.map Task.id).Nodup) :
    ((mark_task_done task_id db).1 = .error .NotFound ↔
        ∀ t ∈ db, t.id ≠ task_id) ∧
    ((mark_task_done task_id db).1 = .error .AlreadyDone ↔
        ∃ t ∈ db, t.id = task_id ∧ t.status = "done") ∧
    (∀ e, (mark_task_done task_id db).1 = .error e →
        (mark_task_done task_id db).2 = db) ∧
    (∀ t', (mark_task_done task_id db).1 = .ok t' →
        t'.status = "done" ∧ t'.id = task_id ∧
        t' ∈ (mark_task_done task_id db).2) := by
  rcases hf : db.find? (fun s => s.id == task_id) with _ | t
  · have hnone := List.find?_eq_none.mp hf
    refine ⟨?_, ?_, ?_, ?_⟩
    · simp only [mark_task_done, hf]
      constructor
      · intro _ t ht
        simpa using hnone t ht
      · intro _; trivial
    · simp only [mark_task_done, hf]
      constructor
      · intro h; simp at h
      · rintro ⟨t, ht, hid, _⟩
        exact absurd hid (by simpa using hnone t ht)
    · intro e _
      simp [mark_task_done, hf]
    · intro t' h
      simp [mark_task_done, hf] at h
  · obtain ⟨htmem, htid⟩ := find_task_mem hf
    by_cases hd : t.status = "done"
    · refine ⟨?_, ?_, ?_, ?_⟩
      · simp only [mark_task_done, hf, hd]
        constructor
        · intro h; simp at h
        · intro hall; exact absurd htid (hall t htmem)
      · simp only [mark_task_done, hf, hd]
        simp only [beq_self_eq_true, if_true]
        exact iff_of_true trivial ⟨t, htmem, htid, hd⟩
      · intro e _
        simp [mark_task_done, hf, hd]
      · intro t' h
        simp [mark_task_done, hf, hd] at h
    · have hdb : (t.status == "done") = false := by simpa using hd
      refine ⟨?_, ?_, ?_, ?_⟩
      · simp only [mark_task_done, hf, hdb]
        constructor
        · intro h; simp at h
        · intro hall; exact absurd htid (hall t htmem)
      · simp only [mark_task_done, hf, hdb]
        constructor
        · intro h; simp at h
        · rintro ⟨s, hs, hsid, hsdone⟩
          have : s = t :=
            List.inj_on_of_nodup_map hnd hs htmem (by rw [hsid, htid])
          exact absurd (this ▸ hsdone) hd
      · intro e h
        simp [mark_task_done, hf, hdb] at h
      · intro t' h
        have hres : mark_task_done task_id db =
            (.ok { t with status := "done" },
              replaceTask task_id { t with status := "done" } db) := by
          simp [mark_task_done, hf, hdb]
        rw [hres] at h ⊢
        simp only [Except.ok.injEq] at h
        subst h
        exact ⟨rfl, htid, mem_replaceTask_of_find hf⟩

/-- Witness for C5: on a one-task store whose task is already done,
`markDone` fails with AlreadyDone. -/
theorem markDone_spec_witness :
    (mark_task_done 1
      [⟨1, "A", none, "done", 3, 0, none, none⟩]).1 =
      .error .AlreadyDone := by
  have h := markDone_spec 1 [⟨1, "A", none, "done", 3, 0, none, none⟩]
    (by decide)
  exact h.2.1.mpr ⟨⟨1, "A", none, "done", 3, 0, none, none⟩, by simp, rfl, rfl⟩

/-- C8: on a store with distinct ids, `delete(id)` fails with NotFound
iff no task with that id exists; otherwise it removes exactly that record
and returns its title, and `get` on the same id in the resulting store
yields NotFound. -/
theorem delete_spec (task_id : Nat) (db : List Task)
    (hnd : (db.map Task.id).Nodup) :
    (delete_task task_id db = none ↔ ∀ t ∈ db, t.id ≠ task_id) ∧
    (∀ title db', delete_task task_id db = some (title, db') →
      (∃ t ∈ db, t.id = task_id ∧ t.title = title) ∧
      (∀ s, s ∈ db' ↔ s ∈ db ∧ s.id ≠ task_id) ∧
      get_task task_id db' = none) := by
  constructor
  · rcases hf : db.find? (fun s => s.id == task_id) with _ | t
    · have hnone := List.find?_eq_none.mp hf
      simp only [delete_task, hf]
      constructor
      · intro _ t ht
        simpa using hnone t ht
      · intro _; trivial
    · obtain ⟨htmem, htid⟩ := find_task_mem hf
      simp only [delete_task, hf]
      constructor
      · intro h; cases h
      · intro hall; exact absurd htid (hall t htmem)
  · intro title db' h
    rcases hf : db.find? (fun s => s.id == task_id) with _ | t
    · simp [delete_task, hf] at h
    · obtain ⟨htmem, htid⟩ := find_task_mem hf
      simp only [delete_task, hf, Option.some.injEq, Prod.mk.injEq] at h
      obtain ⟨htitle, hdb⟩ := h
      refine ⟨⟨t, htmem, htid, htitle⟩, ?_, ?_⟩
      · intro s
        rw [← hdb]
        exact mem_eraseP_id hnd s
      · rw [get_task, List.find?_eq_none]
        intro s hs
        rw [← hdb] at hs
        have := (mem_eraseP_id hnd s).mp hs
        simpa using this.2

/-- Witness for C8: deleting the only task empties the store and `get`
then yields NotFound. -/
theorem delete_spec_witness :
    get_task 1 ([] : List Task) = none := by
  have h := delete_spec 1 [⟨1, "A", none, "todo", 3, 0, none, none⟩]
    (by decide)
  exact (h.2 "A" [] (by rfl)).2.2

/-- C9: a successful partial update changes only the fields explicitly
present in the input: every unset field keeps its prior value, and `id`,
`created_at` and `updated_at` are unchanged in the returned task. -/
theorem update_frame (task_id : Nat) (u : TaskUpdate) (db : List Task)
    (t t' : Task) (db' : List Task)
    (hget : get_task task_id db = some t)
    (hupd : update_task task_id u db = some (t', db')) :
    (u.title = none → t'.title = t.title) ∧
    (u.description = none → t'.description = t.description) ∧
    (u.priority = none → t'.priority = t.priority) ∧
    (u.status = none → t'.status = t.status) ∧
    (u.due_date = none → t'.due_date = t.due_date) ∧
    t'.id = t.id ∧ t'.created_at = t.created_at ∧
    t'.updated_at = t.updated_at := by
  rw [get_task] at hget
  rw [update_task, hget] at hupd
  simp only [Option.some.injEq, Prod.mk.injEq] at hupd
  obtain ⟨ht', _⟩ := hupd
  subst ht'
  refine ⟨?_, ?_, ?_, ?_, ?_, rfl, rfl, rfl⟩ <;>
    intro h <;> simp [applyUpdate, h]

/-- Witness for C9: updating only `priority` leaves the other fields of
the concrete task untouched. -/
theorem update_frame_witness :
    (⟨1, "A", none, "todo", 5, 0, none, none⟩ : Task).title = "A" := by
  have h := update_frame 1 { priority := some 5 }
    [⟨1, "A", none, "todo", 3, 0, none, none⟩]
    ⟨1, "A", none, "todo", 3, 0, none, none⟩
    ⟨1, "A", none, "todo", 5, 0, none, none⟩
    [⟨1, "A", none, "todo", 5, 0, none, none⟩]
    rfl rfl
  exact h.1 rfl

/-- C2 counterexample: a non-empty partial `update` and a successful
`markDone` both return the task with `updated_at` still at its prior
value `none` — no mutation writes a current timestamp into it. -/
theorem updated_at_not_set_cex :
    ((update_task 1 { status := some "in_progress" }
        [⟨1, "A", none, "todo", 3, 0, none, none⟩]).map
      (fun r => r.1.updated_at)) = some none ∧
    ((mark_task_done 1
        [⟨1, "A", none, "todo", 3, 0, none, none⟩]).1.toOption.map
      Task.updated_at) = some none := ⟨rfl, rfl⟩

/-- C2 amended: no successful mutating operation writes `updated_at`:
both `update` (with any field set) and `markDone` return the task with
`updated_at` exactly as it was before. -/
theorem mutations_preserve_updated_at (task_id : Nat) (u : TaskUpdate)
    (db : List Task) (t : Task)
    (hget : get_task task_id db = some t) :
    (∀ r, update_task task_id u db = some r →
      r.1.updated_at = t.updated_at) ∧
    (∀ t', (mark_task_done task_id db).1 = .ok t' →
      t'.updated_at = t.updated_at) := by
  rw [get_task] at hget
  constructor
  · intro r hr
    rw [update_task, hget] at hr
    simp only [Option.some.injEq] at hr
    rw [← hr]
    simp [applyUpdate]
  · intro t' h
    by_cases hd : (t.status == "done") = true
    · simp [mark_task_done, hget, hd] at h
    · have hres : (mark_task_done task_id db).1 =
          .ok { t with status := "done" } := by
        simp [mark_task_done, hget, hd]
      rw [hres] at h
      simp only [Except.ok.injEq] at h
      rw [← h]

/-- Witness for the amended C2: updating the title of a task whose
`updated_at` is 7 leaves `updated_at` at 7. -/
theorem mutations_preserve_updated_at_witness :
    (⟨1, "B", none, "todo", 3, 0, some 7, none⟩ : Task).updated_at =
      some 7 := by
  have h := mutations_preserve_updated_at 1 { title := some "B" }
    [⟨1, "A", none, "todo", 3, 0, some 7, none⟩]
    ⟨1, "A", none, "todo", 3, 0, some 7, none⟩ rfl
  exact h.1 (⟨1, "B", none, "todo", 3, 0, some 7, none⟩,
    [⟨1, "B", none, "todo", 3, 0, some 7, none⟩]) rfl

/-- C3 counterexample: `create` accepts an empty title and persists it,
and `update` persists an arbitrary status string outside the enumerated
set — the claimed invariant is not preserved. -/
theorem invariant_violations_cex :
    (create_task { title := "" } 0 []).2 =
      [⟨1, "", none, "todo", 3, 0, none, none⟩] ∧
    ¬ StoreInvariant (create_task { title := "" } 0 []).2 ∧
    (update_task 1 { status := some "bogus" }
        [⟨1, "A", none, "todo", 3, 0, none, none⟩]).map Prod.snd =
      some [⟨1, "A", none, "bogus", 3, 0, none, none⟩] ∧
    ¬ validStatus "bogus" := by
  refine ⟨rfl, by decide, rfl, by decide⟩

/-- C3 amended: the operations preserve the invariant only when the
inputs themselves respect it — `create` with a non-empty title, `update`
whose set title is non-empty and whose set status is in the enumerated
set — and `markDone` and `delete` preserve it unconditionally; the
boundary does not reject empty titles or out-of-set statuses. -/
theorem invariant_preservation (db : List Task)
    (hinv : StoreInvariant db) :
    (∀ input now, input.title ≠ "" →
      StoreInvariant (create_task input now db).2) ∧
    (∀ task_id u r,
      (∀ s, u.title = some s → s ≠ "") →
      (∀ s, u.status = some s → validStatus s) →
      update_task task_id u db = some r → StoreInvariant r.2) ∧
    (∀ task_id, StoreInvariant (mark_task_done task_id db).2) ∧
    (∀ task_id r, delete_task task_id db = some r →
      StoreInvariant r.2) := by
  refine ⟨?_, ?_, ?_, ?_⟩
  · intro input now htitle t ht
    simp only [create_task, List.mem_append, List.mem_singleton] at ht
    rcases ht with ht | ht
    · exact hinv t ht
    · subst ht
      exact ⟨Or.inl rfl, htitle⟩
  · intro task_id u r htitle hstatus hr s hs
    rcases hf : db.find? (fun x => x.id == task_id) with _ | t
    · rw [update_task, hf] at hr; cases hr
    · obtain ⟨htmem, _⟩ := find_task_mem hf
      rw [update_task, hf] at hr
      simp only [Option.some.injEq] at hr
      rw [← hr] at hs
      rcases mem_replaceTask hs with h | h
      · subst h
        obtain ⟨hvt, hnt⟩ := hinv t htmem
        constructor
        · rcases hus : u.status with _ | v
          · have : (applyUpdate u t).status = t.status := by
              simp [applyUpdate, hus]
            rw [this]; exact hvt
          · have : (applyUpdate u t).status = v := by
              simp [applyUpdate, hus]
            rw [this]; exact hstatus v hus
        · rcases hut : u.title with _ | v
          · have : (applyUpdate u t).title = t.title := by
              simp [applyUpdate, hut]
            rw [this]; exact hnt
          · have : (applyUpdate u t).title = v := by
              simp [applyUpdate, hut]
            rw [this]; exact htitle v hut
      · exact hinv s h
  · intro task_id s hs
    rcases hf : db.find? (fun x => x.id == task_id) with _ | t
    · simp only [mark_task_done, hf] at hs
      exact hinv s hs
    · by_cases hd : (t.status == "done") = true
      · simp only [mark_task_done, hf, hd, if_true] at hs
        exact hinv s hs
      · have hres : (mark_task_done task_id db).2 =
            replaceTask task_id { t with status := "done" } db := by
          simp [mark_task_done, hf, hd]
        rw [hres] at hs
        rcases mem_replaceTask hs with h | h
        · subst h
          obtain ⟨_, hnt⟩ := hinv t (find_task_mem hf).1
          exact ⟨Or.inr (Or.inr (Or.inl rfl)), hnt⟩
        · exact hinv s h
  · intro task_id r hr s hs
    rcases hf : db.find? (fun x => x.id == task_id) with _ | t
    · rw [delete_task, hf] at hr; cases hr
    · rw [delete_task, hf] at hr
      simp only [Option.some.injEq] at hr
      rw [← hr] at hs
      exact hinv s (List.eraseP_subset db hs)

/-- Witness for the amended C3: `markDone` on a valid one-task store
keeps the store invariant. -/
theorem invariant_preservation_witness :
    StoreInvariant (mark_task_done 1
      [⟨1, "A", none, "todo", 3, 0, none, none⟩]).2 := by
  have h := invariant_preservation
    [⟨1, "A", none, "todo", 3, 0, none, none⟩] (by decide)
  exact h.2.2.1 1

/-- C4 counterexample: with a single `blocked` task, `stats` reports
total 1 but the `by_status` counts sum to 0. -/
theorem stats_blocked_cex :
    (get_stats 0
      [⟨1, "A", none, "blocked", 3, 0, none, none⟩]).total_tasks = 1 ∧
    (get_stats 0 [⟨1, "A", none, "blocked", 3, 0, none, none⟩]).todo +
      (get_stats 0
        [⟨1, "A", none, "blocked", 3, 0, none, none⟩]).in_progress +
      (get_stats 0 [⟨1, "A", none, "blocked", 3, 0, none, none⟩]).done =
      0 := ⟨rfl, rfl⟩

/-- Splitting a count over the three mutually exclusive status values. -/
theorem count_three_split (db : List Task) :
    (db.filter (fun t => t.status == "todo")).length +
      (db.filter (fun t => t.status == "in_progress")).length +
      (db.filter (fun t => t.status == "done")).length =
      (db.filter (fun t =>
        t.status == "todo" || t.status == "in_progress" ||
          t.status == "done")).length := by
  induction db with
  | nil => rfl
  | cons a rest ih =>
      simp only [List.filter_cons]
      by_cases h1 : a.status = "todo"
      · simp [h1]; omega
      · by_cases h2 : a.status = "in_progress"
        · simp [h1, h2]; omega
        · by_cases h3 : a.status = "done"
          · simp [h1, h2, h3]; omega
          · simp [h1, h2, h3]; omega

/-- C4 amended: `stats` reports `total` equal to the number of all
tasks, and the sum of the per-status counts equals the number of tasks
whose status is `todo`, `in_progress` or `done` — tasks with any other
status (such as `blocked`) are counted in the total but in no
`by_status` bucket. -/
theorem stats_totals (now : DateTime) (db : List Task) :
    (get_stats now db).total_tasks = db.length ∧
    (get_stats now db).todo + (get_stats now db).in_progress +
        (get_stats now db).done =
      (db.filter (fun t =>
        t.status == "todo" || t.status == "in_progress" ||
          t.status == "done")).length :=
  ⟨rfl, count_three_split db⟩

/-- C6 counterexample: an explicitly provided empty-string status is
treated as absent (a `todo` task is returned although its status differs
from the provided value), and with 101 matching tasks the default limit
100 silently drops one of them. -/
theorem list_filter_cex :
    get_tasks (some "") 100 [⟨1, "A", none, "todo", 3, 0, none, none⟩] =
      [⟨1, "A", none, "todo", 3, 0, none, none⟩] ∧
    ("todo" : String) ≠ "" ∧
    (get_tasks (some "done") 100 manyDone).length = 100 ∧
    (manyDone.filter (fun t => t.status == "done")).length = 101 := by
  refine ⟨rfl, by decide, rfl, rfl⟩

/-- C6 amended: for a provided non-empty status, `list` returns only
tasks of the store with exactly that status, and all of them whenever at
most `limit` match (the cap applies to the filtered result too); with no
status provided it returns all tasks capped at `limit`.  An empty-string
status behaves like no status at all. -/
theorem list_filter_spec (s : String) (limit : Nat) (db : List Task)
    (hs : s ≠ "") :
    (∀ t ∈ get_tasks (some s) limit db, t ∈ db ∧ t.status = s) ∧
    ((db.filter (fun t => t.status == s)).length ≤ limit →
      ∀ t, t ∈ db → t.status = s →
        t ∈ get_tasks (some s) limit db) ∧
    get_tasks none limit db = db.take limit := by
  have htr : statusTruthy (some s) = true := by
    simp [statusTruthy, hs]
  have hgt : get_tasks (some s) limit db =
      (db.filter (fun t => t.status == s)).take limit := by
    simp [get_tasks, htr]
  refine ⟨?_, ?_, rfl⟩
  · intro t ht
    rw [hgt] at ht
    have hsub := List.take_subset _ _ ht
    have hm := List.mem_filter.mp hsub
    exact ⟨hm.1, by simpa using hm.2⟩
  · intro hlen t htdb hts
    rw [hgt, List.take_of_length_le hlen]
    exact List.mem_filter.mpr ⟨htdb, by simpa using hts⟩

/-- Witness for the amended C6: with no status provided, a one-task
store is returned whole under the default limit. -/
theorem list_filter_spec_witness :
    get_tasks none 100 [⟨1, "A", none, "done", 3, 0, none, none⟩] =
      [⟨1, "A", none, "done", 3, 0, none, none⟩] := by
  have h := list_filter_spec "done" 100
    [⟨1, "A", none, "done", 3, 0, none, none⟩] (by decide)
  rw [h.2.2]
  rfl

/-- C7: on an empty store `stats` returns all counts 0 and the literal
`"0%"` (no division is attempted); on a non-empty store the completion
rate is the done-count over the total, formatted as a percentage with
one decimal place. -/
theorem stats_completion_rate (now : DateTime) (db : List Task) :
    (db = [] → get_stats now db =
      { total_tasks := 0, todo := 0, in_progress := 0, done := 0,
        overdue_tasks := 0, completion_rate := "0%" }) ∧
    (db ≠ [] → (get_stats now db).completion_rate =
      formatPercent1 (db.filter (fun t => t.status == "done")).length
        db.length) := by
  constructor
  · rintro rfl; rfl
  · intro hne
    have hpos : 0 < db.length := List.length_pos.mpr hne
    simp only [get_stats]
    rw [if_pos hpos]

/-- Witness for C7: the two branches at concrete stores, with the
formatting evaluated concretely — in particular 23 done of 80 renders as
`"28.7%"`, the 28.749999999999996 the float pipeline produces, not the
exact-rational `"28.8%"`. -/
theorem stats_completion_rate_witness :
    (get_stats 0 ([] : List Task) =
      { total_tasks := 0, todo := 0, in_progress := 0, done := 0,
        overdue_tasks := 0, completion_rate := "0%" }) ∧
    (get_stats 0
      [⟨1, "A", none, "done", 3, 0, none, none⟩]).completion_rate =
      formatPercent1 1 1 ∧
    formatPercent1 1 1 = "100.0%" ∧
    formatPercent1 23 80 = "28.7%" := by
  refine ⟨(stats_completion_rate 0 []).1 rfl, ?_, rfl, rfl⟩
  exact (stats_completion_rate 0
    [⟨1, "A", none, "done", 3, 0, none, none⟩]).2 (by simp)

end TaskFlow
